import Mathlib

/-!
Shallow embedding of `src/kibana/components/vislib/lib/x_axis.js` (the
`XAxis` class of the vislib charting component): scale selection, tick-axis
construction, per-panel drawing, label rotation and truncation for
categorical axes, and collision filtering for temporal axes.

Pixel measurements and domain values are modelled as rationals. A
JavaScript `NaN` outcome is modelled with `Option` (`none` = non-numeric).
DOM state is modelled as explicit records that each pass transforms.
-/

namespace XAxisModel

/-- The `ordered` constructor argument. `none` models a falsy or absent
value (`null`, `undefined`, `false`); `some o` models an object, with
`o.date` the truthiness of its `date` field and `o.min`, `o.max` its time
bounds. -/
structure OrderedObj where
  date : Bool
  min : ℚ
  max : ℚ
deriving DecidableEq

/-- The scale constructor chosen by `getScale`:
`d3.time.scale.utc()` or `d3.scale.ordinal()`. -/
inductive ScaleKind where
  | time
  | ordinal
deriving DecidableEq

/-- Model of `getScale` (x_axis.js lines 48-53): a continuous time scale iff
`ordered && ordered.date` is truthy, else a discrete ordinal scale. -/
def getScale (ordered : Option OrderedObj) : ScaleKind :=
  match ordered with
  | some o => if o.date then ScaleKind.time else ScaleKind.ordinal
  | none => ScaleKind.ordinal

/-- The domain attached to the scale by `getDomain`. -/
inductive DomainVal where
  | timeDomain (min max : ℚ)
  | ordinalDomain (xValues : List ℚ)
deriving DecidableEq

/-- Model of `getTimeDomain` (lines 80-82): `scale.domain([ordered.min, ordered.max])`. -/
def getTimeDomain (ordered : OrderedObj) : DomainVal :=
  DomainVal.timeDomain ordered.min ordered.max

/-- Model of `getOrdinalDomain` (lines 92-94): `scale.domain(xValues)`. -/
def getOrdinalDomain (xValues : List ℚ) : DomainVal :=
  DomainVal.ordinalDomain xValues

/-- Model of `getDomain` (lines 65-70): dispatches on `ordered && ordered.date`. -/
def getDomain (ordered : Option OrderedObj) (xValues : List ℚ) : DomainVal :=
  match ordered with
  | some o => if o.date then getTimeDomain o else getOrdinalDomain xValues
  | none => getOrdinalDomain xValues

/-- The range call applied by `getRange`: `scale.range([0, width])` for the
temporal branch, `scale.rangeBands([0, width], 0.1)` for the categorical
branch. -/
inductive RangeApplied where
  | linear (lo hi : ℚ)
  | bands (lo hi spacing : ℚ)
deriving DecidableEq

/-- Model of `getRange` (lines 106-111): dispatches on `ordered && ordered.date`. -/
def getRange (ordered : Option OrderedObj) (width : ℚ) : RangeApplied :=
  match ordered with
  | some o =>
      if o.date then RangeApplied.linear 0 width
      else RangeApplied.bands 0 width (1/10)
  | none => RangeApplied.bands 0 width (1/10)

/-- The fully built scale produced by `getXScale` (lines 121-125): the
result of piping `getScale` through `getDomain` and `getRange`. -/
structure BuiltScale where
  kind : ScaleKind
  domain : DomainVal
  range : RangeApplied
deriving DecidableEq

/-- Model of `getXScale` (lines 121-125). -/
def getXScale (ordered : Option OrderedObj) (xValues : List ℚ) (width : ℚ) :
    BuiltScale :=
  { kind := getScale ordered
    domain := getDomain ordered xValues
    range := getRange ordered width }

/-- Probing the built scale at a value, as the JS evaluation `xScale(x)`;
`none` models a non-numeric (`NaN`) result. A continuous time scale with a
degenerate domain (`max = min`) divides by zero: `(x - min)/(max - min)` is
`0/0 = NaN` at the domain point. An ordinal `rangeBands` scale places the
in-domain value of index `i` at `lo + step * (spacing + i)` with
`step = (hi - lo)/(n + spacing)` (d3 v3 `rangeBands` with equal inner and
outer spacing). Values outside the modelled domain and scale shapes that
`getXScale` never produces are not probed by any theorem here and map to
`none`. -/
def probeScale (s : BuiltScale) (x : ℚ) : Option ℚ :=
  match s.domain, s.range with
  | DomainVal.timeDomain a b, RangeApplied.linear lo hi =>
      if b = a then none else some (lo + (x - a) / (b - a) * (hi - lo))
  | DomainVal.ordinalDomain xs, RangeApplied.bands lo hi spacing =>
      match xs.findIdx? (fun v => v == x) with
      | some i => some (lo + (hi - lo) / (xs.length + spacing) * (spacing + i))
      | none => none
  | _, _ => none

/-- The tick-axis generator built by `getXAxis`:
`d3.svg.axis().scale(xScale).ticks(10).tickFormat(formatter).orient("bottom")`. -/
structure XAxisGen where
  scale : BuiltScale
  ticks : Nat
  orient : String
deriving DecidableEq

/-- In JS the built scale is a function object, and a function is always
truthy, so the guard disjunct `!this.xScale` is false for every scale built
by `getXScale`. -/
def scaleFalsy (_ : BuiltScale) : Bool := false

/-- Lodash `_.isNaN` is true only of the number `NaN`; applied to the scale
itself, which is a function object, it is false for every scale built by
`getXScale`. -/
def scaleIsNaN (_ : BuiltScale) : Bool := false

/-- Model of `getXAxis` (lines 133-145): builds `this.xScale`, guards with
`!this.xScale || _.isNaN(this.xScale)` (note: the guard tests the scale
object itself, it never probes the scale at a value), then constructs the
tick-axis generator. -/
def getXAxis (ordered : Option OrderedObj) (xValues : List ℚ) (width : ℚ) :
    Except String XAxisGen :=
  let xScale := getXScale ordered xValues width
  if scaleFalsy xScale || scaleIsNaN xScale then
    Except.error "xScale is invalid"
  else
    Except.ok { scale := xScale, ticks := 10, orient := "bottom" }

/-- The label strategy chosen by `filterOrRotate`. -/
inductive LabelStrategy where
  | rotate
  | filter
deriving DecidableEq

/-- The branch taken by `filterOrRotate` (lines 201-223):
`rotateAxisLabels` when `!ordered || ordered === undefined`, else
`filterAxisLabels`. -/
def filterOrRotate (ordered : Option OrderedObj) : LabelStrategy :=
  match ordered with
  | none => LabelStrategy.rotate
  | some _ => LabelStrategy.filter

/-- An ordering descriptor that marks the axis temporal: present with a
truthy `date` field. -/
def orderedIsTemporal (ordered : Option OrderedObj) : Prop :=
  ∃ o, ordered = some o ∧ o.date = true

/-- One svg surface appended to a panel by `draw`:
`div.append("svg").attr("width", width).attr("height", height)`. -/
structure PanelSvg where
  width : ℚ
  height : ℚ
deriving DecidableEq

/-- One `.x-axis-div` panel: its measured height (`$(this).height()`) and
the svg surfaces currently attached to it. -/
structure PanelDom where
  height : ℚ
  svgs : List PanelSvg
deriving DecidableEq

/-- Modelled from the spec: `validateWidthandHeight` comes from the
`ErrorHandler` mixin (`components/vislib/lib/_error_handler.js`), which is
not part of this repository snapshot. Per the spec it validates
`width > 0 and height > 0` and fails with a configuration error otherwise. -/
def validateWidthandHeight (width height : ℚ) : Except String Unit :=
  if width ≤ 0 ∨ height ≤ 0 then Except.error "chart is too small"
  else Except.ok ()

/-- The body of `selection.each` inside `draw` (lines 169-187) for one
panel: compute `width = parentWidth / n`, measure the panel height,
validate both, build the tick axis, and only then append a fresh svg
surface of that width and height, keeping whatever svg surfaces the panel
already holds. An error aborts before the append, so the failing panel
receives no svg. -/
def drawPanel (ordered : Option OrderedObj) (xValues : List ℚ)
    (parentWidth : ℚ) (n : Nat) (p : PanelDom) : Except String PanelDom :=
  let width := parentWidth / n
  let height := p.height
  match validateWidthandHeight width height with
  | Except.error e => Except.error e
  | Except.ok _ =>
      match getXAxis ordered xValues width with
      | Except.error e => Except.error e
      | Except.ok _ =>
          Except.ok { p with svgs :=
            p.svgs ++ [{ width := width, height := height }] }

/-- The panel loop of `draw` (lines 163-190): `n = selection[0].length`,
the parent width is measured once for the whole pass, and each panel is
processed in order by `drawPanel`. A thrown error propagates out of the
pass; the resulting DOM (with the failing panel and the panels after it
untouched) is paired with the error. -/
def drawPanels (ordered : Option OrderedObj) (xValues : List ℚ)
    (parentWidth : ℚ) (n : Nat) :
    List PanelDom → List PanelDom × Option String
  | [] => ([], none)
  | p :: ps =>
      match drawPanel ordered xValues parentWidth n p with
      | Except.error e => (p :: ps, some e)
      | Except.ok p' =>
          let rest := drawPanels ordered xValues parentWidth n ps
          (p' :: rest.1, rest.2)

/-- Model of `render` (lines 36-38) at svg granularity:
`d3.select(this.el).selectAll(".x-axis-div").call(this.draw())`. The
subsequent `filterOrRotate` pass edits tick labels inside the appended
svg and, on the temporal path, neither adds nor removes svg surfaces, so
the svg-level DOM effect of `render` is the `draw` panel loop. -/
def render (ordered : Option OrderedObj) (xValues : List ℚ)
    (parentWidth : ℚ) (panels : List PanelDom) :
    List PanelDom × Option String :=
  drawPanels ordered xValues parentWidth panels.length panels

/-- The characters the truncation loop trims away before the ellipsis:
space, hyphen, comma. -/
def isTrimChar (c : Char) : Bool :=
  c = ' ' || c = '-' || c = ','

/-- The backward-walking while loop of `truncateLabel` (lines 296-298),
indexed by the clamped position: starting from `endChar`, keep
decrementing while the character at position `endChar - 1` is a space,
hyphen or comma. A lookup outside the string (`str[endChar - 1]` with a
negative index or one beyond the end) yields JS `undefined`, which is none
of the three characters, so the loop stops; in particular the loop never
goes below 0. -/
def trimBack (str : List Char) : Nat → Nat
  | 0 => 0
  | n + 1 =>
      match str.get? n with
      | some c => if isTrimChar c then trimBack str n else n + 1
      | none => n + 1

/-- Model of `truncateLabel` (lines 285-302). The DOM reads are inputs: `str` is
the node text, `width` its measured bounding-box width; `size` is the
pixel budget. JS `str.substr(0, endChar)` returns the empty string for a
negative `endChar`, which the `Int.toNat` clamp reproduces (the while loop
does not run on a negative `endChar` either: `str[endChar - 1]` is
`undefined` there). -/
def truncateLabel (str : List Char) (width size : ℚ) : List Char :=
  let chars : ℚ := str.length
  let pxPerChar := width / chars
  let ellipsesPad : Int := 4
  if size < width then
    let endChar : Int := Int.floor (size / pxPerChar) - ellipsesPad
    str.take (trimBack str endChar.toNat) ++ ['.', '.', '.']
  else str

/-- JS-style character lookup `str[i]`: `none` models `undefined`. -/
def charAt (str : List Char) (i : Int) : Option Char :=
  if i < 0 then none else str.get? i.toNat

/-- The decrement loop exactly as the claim words it, on integer
positions: decrement `endChar` while the character at position
`endChar - 1` is a space, hyphen, or comma. Written from the words of the
specification, to be compared with `trimBack`. -/
def specTrim (str : List Char) (e : Int) : Int :=
  if _h : 1 ≤ e then
    match charAt str (e - 1) with
    | some c => if isTrimChar c then specTrim str (e - 1) else e
    | none => e
  else e
termination_by e.toNat
decreasing_by omega

/-- The truncation algorithm exactly as the claim words it, written from
the words of the specification, to be compared with `truncateLabel`:
return the text unchanged when `renderedWidth(text) <= budget`; otherwise,
with `pxPerChar = renderedWidth(text) / length(text)`, compute
`endChar = floor(budget / pxPerChar) - 4`, decrement it while the
character at position `endChar - 1` is a space, hyphen, or comma, and
return `text[0:endChar] + "..."` (an empty prefix when `endChar` ended up
non-positive). -/
def specTruncate (str : List Char) (width size : ℚ) : List Char :=
  if width ≤ size then str
  else
    let pxPerChar := width / str.length
    let endChar : Int := Int.floor (size / pxPerChar) - 4
    str.take (specTrim str endChar).toNat ++ ['.', '.', '.']

/-- The mutable attribute bag `this._attr`, as far as this engine writes
it: `isRotated` and `xAxisLabelHt`. The label height is a JS number that
is `-Infinity + 15 = -Infinity` when a panel has no tick labels (lodash
`_.max([])` is `-Infinity`), so it is modelled in `WithBot ℚ` with `⊥` for
`-Infinity`; `none` means the field was never written. -/
structure Attr where
  isRotated : Bool := false
  xAxisLabelHt : Option (WithBot ℚ) := none
deriving DecidableEq

/-- Lodash `_.max`: `-Infinity` (modelled `⊥`) on the empty list, else the
maximum element. -/
def lodashMax (l : List ℚ) : WithBot ℚ :=
  l.foldl (fun (acc : WithBot ℚ) (x : ℚ) => max acc (x : WithBot ℚ)) ⊥

/-- One rendered tick label: its text, its measured bounding-box width,
and the presentation attributes the rotation pass may write (`none` =
attribute absent). -/
structure TickLabel where
  text : List Char
  width : ℚ
  anchor : Option String := none
  dx : Option String := none
  dy : Option String := none
  transform : Option String := none
deriving DecidableEq

/-- The per-panel state read and written by `rotateAxisLabels`: the
rendered tick labels, the panel svg height, and the attribute bag. -/
structure RotateState where
  labels : List TickLabel
  svgHeight : ℚ
  attr : Attr
deriving DecidableEq

/-- Constant `maxRotatedLength` (line 234). -/
def maxRotatedLength : ℚ := 180

/-- Constant `xAxisPadding` (line 235). -/
def xAxisPadding : ℚ := 15

/-- The attribute-bag computation of `rotateAxisLabels` (lines 239-258):
measure every label width, take the lodash max, set
`xAxisLabelHt = max + 15`, set `isRotated` (reset to `false` first) iff
the max exceeds the band width, and cap `xAxisLabelHt` at 180 when the
max exceeds 180. -/
def rotateAttrs (barWidth : ℚ) (st : RotateState) : Attr :=
  let lengths := st.labels.map (fun t => t.width)
  let length := lodashMax lengths
  let a0 : Attr := { st.attr with isRotated := false }
  let a1 : Attr :=
    { a0 with xAxisLabelHt := some (length + ((xAxisPadding : ℚ) : WithBot ℚ)) }
  let a2 : Attr :=
    if (barWidth : WithBot ℚ) < length then { a1 with isRotated := true }
    else a1
  if ((maxRotatedLength : ℚ) : WithBot ℚ) < length then
    { a2 with xAxisLabelHt := some ((maxRotatedLength : ℚ) : WithBot ℚ) }
  else a2

/-- Model of `rotateAxisLabels` (lines 230-275): compute the attribute bag via
`rotateAttrs`, then only when rotated: truncate every label to the stored
height, right-anchor it, offset it by `(-0.8em, -0.60em)`, rotate it by
-90 degrees, and grow the svg height to the stored height. When the
rotated branch runs, the max exceeds the band width so it is a plain
rational and the stored height is a plain rational too; the `⊥` defaults
of the extraction are never used there. -/
def rotateAxisLabels (barWidth : ℚ) (st : RotateState) : RotateState :=
  let a3 : Attr := rotateAttrs barWidth st
  if a3.isRotated then
    let ht : ℚ := (a3.xAxisLabelHt.getD ⊥).unbot' 0
    { labels := st.labels.map (fun t =>
        { t with
          text := truncateLabel t.text t.width ht
          anchor := some "end"
          dx := some "-.8em"
          dy := some "-.60em"
          transform := some "rotate(-90)" })
      svgHeight := ht
      attr := a3 }
  else { st with attr := a3 }

/-- The attribute-bag effect of one full `render` pass: `draw` (line 161)
resets `this._attr.isRotated` to `false` when the pass starts, then
`filterOrRotate` (lines 207-222) runs `rotateAxisLabels` when `ordered` is
falsy and `filterAxisLabels` otherwise. `filterAxisLabels` (lines 314-341)
never writes `this._attr`. -/
def renderAttrs (ordered : Option OrderedObj) (barWidth : ℚ)
    (st : RotateState) : Attr :=
  let st1 : RotateState := { st with attr := { st.attr with isRotated := false } }
  match filterOrRotate ordered with
  | LabelStrategy.rotate => (rotateAxisLabels barWidth st1).attr
  | LabelStrategy.filter => st1.attr

/-- One tick of a temporal axis as seen by `filterAxisLabels`: its pixel
position `myX = self.xScale(d)` and the measured bounding-box width of its
parent tick group. -/
structure Tick where
  x : ℚ
  bboxWidth : ℚ
deriving DecidableEq

/-- The `padding` multiplier 1.1 of `filterAxisLabels` (line 322). -/
def tickPadding : ℚ := 11 / 10

/-- Half of `myWidth`, with `myWidth = par.getBBox().width * padding`. -/
def halfWidth (t : Tick) : ℚ := t.bboxWidth * tickPadding / 2

/-- Model of `filterAxisLabels` (lines 314-341): a single left-to-right sweep with
state `startX`. A tick is kept (its label formatted) iff
`startX + halfWidth < myX && maxW > myX + halfWidth`; on keep, `startX`
advances to `myX + halfWidth`; on reject, the whole tick is removed from
the DOM. -/
def filterAxisLabels (maxW : ℚ) : ℚ → List Tick → List Tick
  | _, [] => []
  | startX, t :: ts =>
      if startX + halfWidth t < t.x ∧ t.x + halfWidth t < maxW then
        t :: filterAxisLabels maxW (t.x + halfWidth t) ts
      else
        filterAxisLabels maxW startX ts

/-- The whole collision-filter pass: the sweep starts at `startX = 0`. -/
def filterAxisLabelsPass (maxW : ℚ) (ticks : List Tick) : List Tick :=
  filterAxisLabels maxW 0 ticks

/-- C1 counterexample: the claim asserts that for every possible ordering
value the scale-selection branch (`getScale`/`getRange`) and the
label-strategy branch (`filterOrRotate`) agree on which axis kind is
active. It fails: for an ordering object whose `date` field is falsy,
`getScale` and `getRange` pick the categorical kind (ordinal scale, banded
range) while `filterOrRotate` picks the temporal-kind collision filter. -/
theorem C1_counterexample :
    getScale (some ⟨false, 0, 0⟩) = ScaleKind.ordinal ∧
    getRange (some ⟨false, 0, 0⟩) 100 = RangeApplied.bands 0 100 (1/10) ∧
    filterOrRotate (some ⟨false, 0, 0⟩) = LabelStrategy.filter :=
  ⟨rfl, rfl, rfl⟩

/-- C1 amended: the scale and range branches select the temporal kind
exactly when the ordering is present with a truthy temporal mark, while the
label-strategy branch selects the collision filter exactly when the
ordering is present at all; hence the branches agree when the ordering is
absent or marked temporal, and disagree when an ordering object is present
without the temporal mark. -/
theorem C1_theorem (ordered : Option OrderedObj) (width : ℚ) :
    (getScale ordered = ScaleKind.time ↔ orderedIsTemporal ordered) ∧
    (getRange ordered width = RangeApplied.linear 0 width ↔
      orderedIsTemporal ordered) ∧
    (getScale ordered = ScaleKind.ordinal ↔ ¬ orderedIsTemporal ordered) ∧
    (getRange ordered width = RangeApplied.bands 0 width (1/10) ↔
      ¬ orderedIsTemporal ordered) ∧
    (filterOrRotate ordered = LabelStrategy.filter ↔ ordered ≠ none) ∧
    (filterOrRotate ordered = LabelStrategy.rotate ↔ ordered = none) := by
  rcases ordered with _ | ⟨d, mn, mx⟩
  · simp [getScale, getRange, filterOrRotate, orderedIsTemporal]
  · cases d <;>
      simp [getScale, getRange, filterOrRotate, orderedIsTemporal]

/-- C2: the claim asserts that a scale probing to `NaN` at an in-domain
value makes `getXAxis` raise a fatal error before the tick-axis generator
is constructed. The code is wrong: the guard
`!this.xScale || _.isNaN(this.xScale)` tests the scale function object
itself (always truthy, never the number `NaN`) instead of probing it, so
for a degenerate temporal domain `[0, 0]` the probe at the in-domain value
`0` is `NaN`, yet no error is raised and the generator is built. -/
theorem C2_theorem :
    probeScale (getXScale (some ⟨true, 0, 0⟩) [] 100) 0 = none ∧
    getXAxis (some ⟨true, 0, 0⟩) [] 100 =
      Except.ok
        { scale := getXScale (some ⟨true, 0, 0⟩) [] 100
          ticks := 10
          orient := "bottom" } :=
  ⟨rfl, rfl⟩

/-- C3: the claim asserts `render()` is idempotent, the second pass
replacing the output of the first. The code is wrong: `draw` appends a
fresh svg to each panel and nothing removes the previous one, so a second
`render()` with identical inputs leaves two svg surfaces on the panel
where one render leaves one. -/
lemma drawPanel_eq (ordered : Option OrderedObj) (xValues : List ℚ)
    (parentWidth : ℚ) (n : Nat) (p : PanelDom) :
    drawPanel ordered xValues parentWidth n p =
      if parentWidth / n ≤ 0 ∨ p.height ≤ 0 then
        Except.error "chart is too small"
      else
        Except.ok { p with svgs := p.svgs ++
          [{ width := parentWidth / n, height := p.height }] } := by
  by_cases h : parentWidth / n ≤ 0 ∨ p.height ≤ 0
  · simp [drawPanel, validateWidthandHeight, h]
  · simp [drawPanel, validateWidthandHeight, getXAxis, scaleFalsy,
      scaleIsNaN, h]

theorem C3_theorem :
    render (some ⟨true, 0, 1000⟩) [] 100 [⟨50, []⟩] =
      ([⟨50, [⟨100, 50⟩]⟩], none) ∧
    render (some ⟨true, 0, 1000⟩) [] 100 [⟨50, [⟨100, 50⟩]⟩] =
      ([⟨50, [⟨100, 50⟩, ⟨100, 50⟩]⟩], none) ∧
    ([⟨50, [⟨100, 50⟩, ⟨100, 50⟩]⟩] : List PanelDom) ≠
      [⟨50, [⟨100, 50⟩]⟩] := by
  refine ⟨?_, ?_, by decide⟩ <;>
    norm_num [render, drawPanels, drawPanel_eq]

lemma drawPanels_ok_shape (ordered : Option OrderedObj) (xValues : List ℚ)
    (parentWidth : ℚ) (n : Nat) :
    ∀ ps : List PanelDom,
      (drawPanels ordered xValues parentWidth n ps).2 = none →
      (drawPanels ordered xValues parentWidth n ps).1 =
        ps.map (fun q => { q with svgs := q.svgs ++
          [{ width := parentWidth / n, height := q.height }] }) := by
  intro ps
  induction ps with
  | nil => intro _; simp [drawPanels]
  | cons p ps ih =>
      intro h
      by_cases hb : parentWidth / n ≤ 0 ∨ p.height ≤ 0
      · exfalso
        simp [drawPanels, drawPanel_eq, hb] at h
      · simp [drawPanels, drawPanel_eq, hb] at h ⊢
        exact ih h

lemma drawPanels_err (ordered : Option OrderedObj) (xValues : List ℚ)
    (parentWidth : ℚ) (n : Nat) :
    ∀ ps : List PanelDom, ∀ p ∈ ps,
      drawPanel ordered xValues parentWidth n p =
        Except.error "chart is too small" →
      (drawPanels ordered xValues parentWidth n ps).2 ≠ none := by
  intro ps
  induction ps with
  | nil => intro p hp; exact absurd hp (List.not_mem_nil p)
  | cons a ps ih =>
      intro p hp herr
      rcases List.mem_cons.mp hp with rfl | hmem
      · simp [drawPanels, herr]
      · rcases ha : drawPanel ordered xValues parentWidth n a with e | a'
        · simp [drawPanels, ha]
        · simp only [drawPanels, ha, ne_eq]
          exact ih p hmem herr

/-- C8: per render pass over N sibling panels, every appended svg surface
has width `parentWidth / N` (parent width measured once); and whenever a
panel has non-positive computed width or measured height, the pass raises
a configuration error and that panel receives no svg surface (the
validation in `drawPanel` precedes the append). The validation capability
is modelled from the spec, as `validateWidthandHeight` lives in the
`ErrorHandler` mixin outside this repository snapshot. -/
theorem C8_theorem (ordered : Option OrderedObj) (xValues : List ℚ)
    (parentWidth : ℚ) (panels : List PanelDom) :
    ((drawPanels ordered xValues parentWidth panels.length panels).2 =
        none →
      (drawPanels ordered xValues parentWidth panels.length panels).1 =
        panels.map (fun q => { q with svgs := q.svgs ++
          [{ width := parentWidth / panels.length
             height := q.height }] })) ∧
    (∀ p ∈ panels,
      (parentWidth / panels.length ≤ 0 ∨ p.height ≤ 0) →
      (drawPanels ordered xValues parentWidth panels.length panels).2 ≠
        none ∧
      drawPanel ordered xValues parentWidth panels.length p =
        Except.error "chart is too small") := by
  constructor
  · exact drawPanels_ok_shape ordered xValues parentWidth panels.length
      panels
  · intro p hp hbad
    have herr : drawPanel ordered xValues parentWidth panels.length p =
        Except.error "chart is too small" := by
      rw [drawPanel_eq]; exact if_pos hbad
    exact ⟨drawPanels_err ordered xValues parentWidth panels.length panels
      p hp herr, herr⟩

/-- C8 witness: a single panel of measured height 0 under parent width 100
makes the pass fail with the configuration error and leaves that panel
without an svg surface. -/
theorem C8_witness :
    drawPanel none [5] 100 1 ⟨0, []⟩ = Except.error "chart is too small" ∧
    (drawPanels none [5] 100 1 [⟨0, []⟩]).2 ≠ none := by
  have h := (C8_theorem none [5] 100 [⟨0, []⟩]).2 ⟨0, []⟩ (by simp)
    (Or.inr le_rfl)
  exact ⟨h.2, h.1⟩

lemma specTrim_toNat (str : List Char) :
    ∀ n : Nat, ∀ e : Int, e.toNat = n →
      (specTrim str e).toNat = trimBack str n := by
  intro n
  induction n with
  | zero =>
      intro e he
      have h1 : ¬ (1 ≤ e) := by omega
      rw [specTrim, dif_neg h1, trimBack]
      omega
  | succ m ih =>
      intro e he
      have h1 : 1 ≤ e := by omega
      have hidx : charAt str (e - 1) = str.get? m := by
        unfold charAt
        rw [if_neg (by omega : ¬ (e - 1 < 0))]
        congr 1
        omega
      rw [specTrim, dif_pos h1, hidx, trimBack]
      cases hg : str.get? m with
      | none =>
          simp only []
          omega
      | some c =>
          simp only []
          by_cases ht : isTrimChar c
          · rw [if_pos ht, if_pos ht]
            exact ih (e - 1) (by omega)
          · rw [if_neg ht, if_neg ht]
            omega

/-- C6: for text of length at least 1, `truncateLabel` returns the text
unchanged when the rendered width fits the budget (hence truncating an
already-fitting label is idempotent), and otherwise computes exactly the
algorithm the claim describes, here transcribed as `specTruncate`:
`endChar = floor(budget / pxPerChar) - 4` with
`pxPerChar = renderedWidth / length`, decremented while the character at
`endChar - 1` is a space, hyphen or comma, then `text[0:endChar] + "..."`. -/
theorem C6_theorem (str : List Char) (width size : ℚ)
    (_h : 1 ≤ str.length) :
    (width ≤ size → truncateLabel str width size = str) ∧
    truncateLabel str width size = specTruncate str width size := by
  constructor
  · intro hle
    simp only [truncateLabel]
    rw [if_neg (not_lt.mpr hle)]
  · by_cases hle : width ≤ size
    · simp only [truncateLabel, specTruncate]
      rw [if_neg (not_lt.mpr hle), if_pos hle]
    · simp only [truncateLabel, specTruncate]
      rw [if_pos (not_le.mp hle), if_neg hle]
      rw [specTrim_toNat str
        (Int.floor (size / (width / (str.length : ℚ))) - 4).toNat
        (Int.floor (size / (width / (str.length : ℚ))) - 4) rfl]

/-- C6 witness: a ten-character label of rendered width 100 under budget
60. -/
theorem C6_witness :
    1 ≤ (['a', 'b', 'c', 'd', 'e', 'f', 'g', 'h', 'i', 'j'] :
      List Char).length ∧
    (((100 : ℚ) ≤ 60 →
        truncateLabel ['a', 'b', 'c', 'd', 'e', 'f', 'g', 'h', 'i', 'j']
          100 60 =
          ['a', 'b', 'c', 'd', 'e', 'f', 'g', 'h', 'i', 'j']) ∧
      truncateLabel ['a', 'b', 'c', 'd', 'e', 'f', 'g', 'h', 'i', 'j']
          100 60 =
        specTruncate ['a', 'b', 'c', 'd', 'e', 'f', 'g', 'h', 'i', 'j']
          100 60) :=
  ⟨by decide,
    C6_theorem ['a', 'b', 'c', 'd', 'e', 'f', 'g', 'h', 'i', 'j'] 100 60
      (by decide)⟩

/-- C7 counterexample: the claim bounds the estimated width of the result
by the budget plus one estimated character width, for any budget of at
least one character width. It fails at the boundary: for the two-character
text of rendered width 10 (so 5 px per character) and budget exactly one
character width (5 px), the result is the bare ellipsis `"..."` of
estimated width 15, which exceeds `5 + 5`. -/
theorem C7_counterexample :
    (10 : ℚ) / ((['a', 'b'] : List Char).length : ℚ) ≤ 5 ∧
    ¬ (((truncateLabel ['a', 'b'] 10 5).length : ℚ) *
        ((10 : ℚ) / ((['a', 'b'] : List Char).length : ℚ)) ≤
        5 + (10 : ℚ) / ((['a', 'b'] : List Char).length : ℚ)) := by
  have h5 : ((5 : ℚ) / (10 / ((['a', 'b'] : List Char).length : ℚ))) = 1 := by
    norm_num
  constructor
  · norm_num
  · simp only [truncateLabel]
    rw [if_pos (by norm_num : (5 : ℚ) < 10), h5]
    norm_num [trimBack]

lemma trimBack_le (str : List Char) : ∀ n : Nat, trimBack str n ≤ n := by
  intro n
  induction n with
  | zero => simp [trimBack]
  | succ m ih =>
      rw [trimBack]
      cases str.get? m with
      | none => exact Nat.le_refl _
      | some c =>
          simp only []
          by_cases ht : isTrimChar c
          · rw [if_pos ht]
            exact Nat.le_succ_of_le ih
          · rw [if_neg ht]

/-- C7 amended: for text of length at least 1, nonnegative rendered width,
and budget of at least one estimated character width, the estimated pixel
width of the result of `truncateLabel` is at most the budget plus two
estimated character widths (two, not one: a budget below four character
widths can leave only the bare three-character ellipsis). -/
theorem C7_theorem (str : List Char) (width size : ℚ)
    (h1 : 1 ≤ str.length) (h2 : 0 ≤ width)
    (h3 : width / (str.length : ℚ) ≤ size) :
    ((truncateLabel str width size).length : ℚ) *
      (width / (str.length : ℚ)) ≤
      size + 2 * (width / (str.length : ℚ)) := by
  have hnpos : (0 : ℚ) < (str.length : ℚ) := by
    exact_mod_cast Nat.lt_of_lt_of_le Nat.zero_lt_one h1
  have hppc0 : 0 ≤ width / (str.length : ℚ) := div_nonneg h2 hnpos.le
  by_cases hlt : size < width
  · have hwpos : 0 < width := lt_of_le_of_lt (le_trans hppc0 h3) hlt
    have hppcpos : 0 < width / (str.length : ℚ) := div_pos hwpos hnpos
    simp only [truncateLabel]
    rw [if_pos hlt]
    set ppc : ℚ := width / (str.length : ℚ) with hppc
    set E : Int := Int.floor (size / ppc) - 4 with hE
    have ht1 : (str.take (trimBack str E.toNat)).length ≤ E.toNat := by
      refine le_trans ?_ (trimBack_le str E.toNat)
      rw [List.length_take]
      exact min_le_left _ _
    have ht2 : (str.take (trimBack str E.toNat) ++
        ['.', '.', '.']).length ≤ E.toNat + 3 := by
      rw [List.length_append]
      simpa using ht1
    have hlenq : ((str.take (trimBack str E.toNat) ++
        ['.', '.', '.']).length : ℚ) ≤ (E.toNat : ℚ) + 3 := by
      exact_mod_cast ht2
    have hEp : (E.toNat : ℚ) * ppc ≤ size - ppc := by
      rcases le_or_lt E 0 with hE0 | hE0
      · rw [Int.toNat_of_nonpos hE0]
        push_cast
        linarith
      · have hcast : (E.toNat : ℚ) = ((E : ℤ) : ℚ) := by
          exact_mod_cast Int.toNat_of_nonneg hE0.le
        rw [hcast]
        have hfl : ((Int.floor (size / ppc) : ℤ) : ℚ) ≤ size / ppc :=
          Int.floor_le _
        have hEq : ((E : ℤ) : ℚ) = ((Int.floor (size / ppc) : ℤ) : ℚ) - 4 := by
          rw [hE]
          push_cast
          ring
        have hmul : ((E : ℤ) : ℚ) * ppc ≤ (size / ppc - 4) * ppc := by
          apply mul_le_mul_of_nonneg_right _ hppc0
          rw [hEq]
          linarith
        have hexp : (size / ppc - 4) * ppc = size - 4 * ppc := by
          rw [sub_mul, div_mul_cancel₀ size (ne_of_gt hppcpos)]
        linarith
    calc ((str.take (trimBack str E.toNat) ++
          ['.', '.', '.']).length : ℚ) * ppc
        ≤ ((E.toNat : ℚ) + 3) * ppc :=
          mul_le_mul_of_nonneg_right hlenq hppc0
      _ = (E.toNat : ℚ) * ppc + 3 * ppc := by ring
      _ ≤ (size - ppc) + 3 * ppc := by linarith
      _ = size + 2 * ppc := by ring
  · simp only [truncateLabel]
    rw [if_neg hlt]
    have hmulw : (str.length : ℚ) * (width / (str.length : ℚ)) = width := by
      field_simp
    rw [hmulw]
    have hws : width ≤ size := not_lt.mp hlt
    linarith [mul_nonneg (by norm_num : (0 : ℚ) ≤ 2) hppc0]

/-- C7 witness: a ten-character label of rendered width 100 (10 px per
character) under budget 60. -/
theorem C7_witness :
    1 ≤ (['a', 'b', 'c', 'd', 'e', 'f', 'g', 'h', 'i', 'j'] :
      List Char).length ∧
    (0 : ℚ) ≤ 100 ∧
    (100 : ℚ) /
        ((['a', 'b', 'c', 'd', 'e', 'f', 'g', 'h', 'i', 'j'] :
          List Char).length : ℚ) ≤ 60 ∧
    ((truncateLabel ['a', 'b', 'c', 'd', 'e', 'f', 'g', 'h', 'i', 'j']
        100 60).length : ℚ) *
      ((100 : ℚ) /
        ((['a', 'b', 'c', 'd', 'e', 'f', 'g', 'h', 'i', 'j'] :
          List Char).length : ℚ)) ≤
      60 + 2 * ((100 : ℚ) /
        ((['a', 'b', 'c', 'd', 'e', 'f', 'g', 'h', 'i', 'j'] :
          List Char).length : ℚ)) :=
  ⟨by decide, by norm_num, by norm_num,
    C7_theorem ['a', 'b', 'c', 'd', 'e', 'f', 'g', 'h', 'i', 'j'] 100 60
      (by decide) (by norm_num) (by norm_num)⟩

lemma foldl_max_le_iff (q : WithBot ℚ) :
    ∀ (l : List ℚ) (acc : WithBot ℚ),
      l.foldl (fun (a : WithBot ℚ) (x : ℚ) => max a (x : WithBot ℚ)) acc ≤
          q ↔
        acc ≤ q ∧ ∀ x ∈ l, (x : WithBot ℚ) ≤ q := by
  intro l
  induction l with
  | nil => intro acc; simp
  | cons y ys ih =>
      intro acc
      rw [List.foldl_cons, ih, max_le_iff]
      constructor
      · rintro ⟨⟨h1, h2⟩, h3⟩
        refine ⟨h1, ?_⟩
        intro x hx
        rcases List.mem_cons.mp hx with rfl | hx
        · exact h2
        · exact h3 x hx
      · rintro ⟨h1, h2⟩
        exact ⟨⟨h1, h2 y (List.mem_cons_self y ys)⟩,
          fun x hx => h2 x (List.mem_cons_of_mem y hx)⟩

lemma lodashMax_le_coe_iff (l : List ℚ) (q : ℚ) :
    lodashMax l ≤ (q : WithBot ℚ) ↔ ∀ x ∈ l, x ≤ q := by
  unfold lodashMax
  rw [foldl_max_le_iff]
  simp

/-- C9: when the rotation decision comes out false (every measured label
width is at most the band width), the rotation pass leaves the tick labels
(text, anchor, dx, dy, transform) and the panel svg height untouched; the
pass only rewrites the attribute bag. -/
theorem C9_theorem (barWidth : ℚ) (st : RotateState)
    (h : ∀ t ∈ st.labels, t.width ≤ barWidth) :
    (rotateAxisLabels barWidth st).labels = st.labels ∧
    (rotateAxisLabels barWidth st).svgHeight = st.svgHeight := by
  have hle : lodashMax (st.labels.map (fun t => t.width)) ≤
      (barWidth : WithBot ℚ) := by
    rw [lodashMax_le_coe_iff]
    intro x hx
    rcases List.mem_map.mp hx with ⟨t, ht, rfl⟩
    exact h t ht
  have hnot : ¬ ((barWidth : WithBot ℚ) <
      lodashMax (st.labels.map (fun t => t.width))) := not_lt.mpr hle
  by_cases hc3 : ((maxRotatedLength : ℚ) : WithBot ℚ) <
      lodashMax (st.labels.map (fun t => t.width))
  · constructor <;> simp [rotateAxisLabels, rotateAttrs, hnot, hc3]
  · constructor <;> simp [rotateAxisLabels, rotateAttrs, hnot, hc3]

/-- C9 witness: one label of width 20 against band width 25, with a stale
`isRotated = true` in the attribute bag. -/
theorem C9_witness :
    (∀ t ∈ [({ text := ['J', 'a', 'n'], width := 20 } : TickLabel)],
      t.width ≤ (25 : ℚ)) ∧
    ((rotateAxisLabels 25
        ⟨[{ text := ['J', 'a', 'n'], width := 20 }], 30,
          { isRotated := true }⟩).labels =
        [{ text := ['J', 'a', 'n'], width := 20 }] ∧
      (rotateAxisLabels 25
        ⟨[{ text := ['J', 'a', 'n'], width := 20 }], 30,
          { isRotated := true }⟩).svgHeight = 30) :=
  ⟨by decide,
    C9_theorem 25
      ⟨[{ text := ['J', 'a', 'n'], width := 20 }], 30,
        { isRotated := true }⟩ (by decide)⟩

/-- C5: in a categorical rotation pass with at least one rendered tick
label whose widths have lodash maximum `m`, the pass stores
`xAxisLabelHt = m + 15`, except exactly 180 when `m > 180`; and it stores
`isRotated = true` iff `m` exceeds the band width. -/
theorem C5_theorem (barWidth m : ℚ) (st : RotateState)
    (hm : lodashMax (st.labels.map (fun t => t.width)) = (m : WithBot ℚ)) :
    (rotateAxisLabels barWidth st).attr.xAxisLabelHt =
      some (if 180 < m then ((180 : ℚ) : WithBot ℚ)
            else ((m + 15 : ℚ) : WithBot ℚ)) ∧
    ((rotateAxisLabels barWidth st).attr.isRotated = true ↔
      barWidth < m) := by
  have hattr : (rotateAxisLabels barWidth st).attr = rotateAttrs barWidth st := by
    unfold rotateAxisLabels
    by_cases hr : (rotateAttrs barWidth st).isRotated <;> simp [hr]
  rw [hattr]
  simp only [rotateAttrs, hm]
  have hc1 : ((barWidth : WithBot ℚ) < (m : WithBot ℚ)) ↔ barWidth < m :=
    WithBot.coe_lt_coe
  have hc2 : (((maxRotatedLength : ℚ) : WithBot ℚ) < (m : WithBot ℚ)) ↔
      (180 : ℚ) < m := by
    rw [WithBot.coe_lt_coe, maxRotatedLength]
  have hadd : (m : WithBot ℚ) + ((xAxisPadding : ℚ) : WithBot ℚ) =
      ((m + 15 : ℚ) : WithBot ℚ) := by
    rw [WithBot.coe_add, xAxisPadding]
  by_cases h1 : barWidth < m <;> by_cases h2 : (180 : ℚ) < m
  · rw [if_pos (hc1.mpr h1), if_pos (hc2.mpr h2), if_pos h2]
    exact ⟨by rw [maxRotatedLength], by simp [h1]⟩
  · rw [if_pos (hc1.mpr h1), if_neg (fun hx => h2 (hc2.mp hx)),
      if_neg h2, hadd]
    exact ⟨rfl, by simp [h1]⟩
  · rw [if_neg (fun hx => h1 (hc1.mp hx)), if_pos (hc2.mpr h2), if_pos h2]
    exact ⟨by rw [maxRotatedLength], by simp [h1]⟩
  · rw [if_neg (fun hx => h1 (hc1.mp hx)),
      if_neg (fun hx => h2 (hc2.mp hx)), if_neg h2, hadd]
    exact ⟨rfl, by simp [h1]⟩

/-- C5 witness: labels of widths 50 and 30 against band width 40: the
stored height is 65 and the axis is marked rotated. -/
theorem C5_witness :
    lodashMax
      (([{ text := ['a'], width := 50 },
         { text := ['b', 'c'], width := 30 }] :
        List TickLabel).map (fun t => t.width)) = ((50 : ℚ) : WithBot ℚ) ∧
    ((rotateAxisLabels 40
        ⟨[{ text := ['a'], width := 50 },
          { text := ['b', 'c'], width := 30 }], 30, {}⟩).attr.xAxisLabelHt =
      some (if (180 : ℚ) < 50 then ((180 : ℚ) : WithBot ℚ)
            else (((50 : ℚ) + 15 : ℚ) : WithBot ℚ)) ∧
      ((rotateAxisLabels 40
        ⟨[{ text := ['a'], width := 50 },
          { text := ['b', 'c'], width := 30 }], 30,
          {}⟩).attr.isRotated = true ↔ (40 : ℚ) < 50)) := by
  have hm : lodashMax
      (([{ text := ['a'], width := 50 },
         { text := ['b', 'c'], width := 30 }] :
        List TickLabel).map (fun t => t.width)) = ((50 : ℚ) : WithBot ℚ) := by
    simp only [List.map_cons, List.map_nil, lodashMax, List.foldl_cons,
      List.foldl_nil]
    rw [max_eq_right bot_le,
      max_eq_left (WithBot.coe_le_coe.mpr (by norm_num))]
  exact ⟨hm, C5_theorem 40 50 _ hm⟩

/-- C10: after a full render pass of a temporal axis (ordering present and
marked temporal), `isRotated` is false: `draw` resets it at the start of
the pass and the collision-filter path never writes it, whatever value a
previous categorical render had left. -/
theorem C10_theorem (ordered : Option OrderedObj) (o : OrderedObj)
    (barWidth : ℚ) (st : RotateState)
    (h1 : ordered = some o) (_h2 : o.date = true) :
    (renderAttrs ordered barWidth st).isRotated = false := by
  subst h1
  simp [renderAttrs, filterOrRotate]

/-- C10 witness: a temporal ordering with a stale `isRotated = true` from
a previous categorical render. -/
theorem C10_witness :
    (some ({ date := true, min := 0, max := 1000 } : OrderedObj) =
      some { date := true, min := 0, max := 1000 }) ∧
    ({ date := true, min := 0, max := 1000 } : OrderedObj).date = true ∧
    (renderAttrs (some { date := true, min := 0, max := 1000 }) 30
      ⟨[], 40, { isRotated := true }⟩).isRotated = false :=
  ⟨rfl, rfl,
    C10_theorem (some { date := true, min := 0, max := 1000 })
      { date := true, min := 0, max := 1000 } 30
      ⟨[], 40, { isRotated := true }⟩ rfl rfl⟩

lemma filterAxisLabels_sublist (maxW : ℚ) :
    ∀ (ts : List Tick) (s : ℚ), (filterAxisLabels maxW s ts).Sublist ts := by
  intro ts
  induction ts with
  | nil => intro s; simp [filterAxisLabels]
  | cons t ts ih =>
      intro s
      rw [filterAxisLabels]
      by_cases hc : s + halfWidth t < t.x ∧ t.x + halfWidth t < maxW
      · rw [if_pos hc]
        exact List.Sublist.cons₂ t (ih _)
      · rw [if_neg hc]
        exact List.Sublist.cons t (ih s)

lemma halfWidth_nonneg (t : Tick) (h : 0 ≤ t.bboxWidth) :
    0 ≤ halfWidth t := by
  unfold halfWidth tickPadding
  exact div_nonneg (mul_nonneg h (by norm_num)) (by norm_num)

lemma filterAxisLabels_mem (maxW : ℚ) :
    ∀ (ts : List Tick), (∀ u ∈ ts, 0 ≤ u.bboxWidth) →
      ∀ (s : ℚ), ∀ t ∈ filterAxisLabels maxW s ts,
        s + halfWidth t < t.x ∧ t.x + halfWidth t < maxW := by
  intro ts
  induction ts with
  | nil =>
      intro _ s t ht
      simp [filterAxisLabels] at ht
  | cons a as ih =>
      intro hw s t ht
      have hwa : 0 ≤ halfWidth a :=
        halfWidth_nonneg a (hw a (List.mem_cons_self a as))
      rw [filterAxisLabels] at ht
      by_cases hc : s + halfWidth a < a.x ∧ a.x + halfWidth a < maxW
      · rw [if_pos hc] at ht
        rcases List.mem_cons.mp ht with rfl | hmem
        · exact hc
        · have hrec := ih (fun u hu => hw u (List.mem_cons_of_mem a hu))
            (a.x + halfWidth a) t hmem
          exact ⟨by linarith [hrec.1, hc.1], hrec.2⟩
      · rw [if_neg hc] at ht
        exact ih (fun u hu => hw u (List.mem_cons_of_mem a hu)) s t ht

lemma filterAxisLabels_pairwise (maxW : ℚ) :
    ∀ (ts : List Tick), (∀ u ∈ ts, 0 ≤ u.bboxWidth) →
      ∀ (s : ℚ), (filterAxisLabels maxW s ts).Pairwise
        (fun a b => a.x + halfWidth a < b.x - halfWidth b) := by
  intro ts
  induction ts with
  | nil => intro _ s; simp [filterAxisLabels]
  | cons a as ih =>
      intro hw s
      rw [filterAxisLabels]
      by_cases hc : s + halfWidth a < a.x ∧ a.x + halfWidth a < maxW
      · rw [if_pos hc]
        refine List.Pairwise.cons ?_
          (ih (fun u hu => hw u (List.mem_cons_of_mem a hu))
            (a.x + halfWidth a))
        intro b hb
        have hb1 := (filterAxisLabels_mem maxW as
          (fun u hu => hw u (List.mem_cons_of_mem a hu))
          (a.x + halfWidth a) b hb).1
        linarith
      · rw [if_neg hc]
        exact ih (fun u hu => hw u (List.mem_cons_of_mem a hu)) s

/-- C4: over any tick sequence with nonnegative measured widths, the
collision-filter sweep (state `startX` starting at 0, advancing to
`x + halfWidth` on each keep) yields kept ticks whose padded intervals
`[x - halfWidth, x + halfWidth]` are pairwise disjoint, whose positions
are strictly increasing, and whose padded edges stay strictly inside
`(0, maxW)`. -/
theorem C4_theorem (maxW : ℚ) (ticks : List Tick)
    (hw : ∀ u ∈ ticks, 0 ≤ u.bboxWidth) :
    (filterAxisLabelsPass maxW ticks).Pairwise
      (fun a b => a.x + halfWidth a < b.x - halfWidth b) ∧
    (filterAxisLabelsPass maxW ticks).Pairwise (fun a b => a.x < b.x) ∧
    ∀ t ∈ filterAxisLabelsPass maxW ticks,
      0 < t.x - halfWidth t ∧ t.x + halfWidth t < maxW := by
  unfold filterAxisLabelsPass
  have hmem := filterAxisLabels_mem maxW ticks hw 0
  have hpw := filterAxisLabels_pairwise maxW ticks hw 0
  have hsub := filterAxisLabels_sublist maxW ticks 0
  have hhw : ∀ t ∈ filterAxisLabels maxW 0 ticks, 0 ≤ halfWidth t :=
    fun t ht => halfWidth_nonneg t (hw t (hsub.subset ht))
  refine ⟨hpw, ?_, ?_⟩
  · refine hpw.imp_of_mem ?_
    intro a b ha hb hab
    have h0a := hhw a ha
    have h0b := hhw b hb
    linarith
  · intro t ht
    have hmt := hmem t ht
    exact ⟨by linarith [hmt.1], hmt.2⟩

/-- C4 witness: ticks at 10, 12, 30 of box width 4 on an axis of width
40: the middle tick collides and is dropped, and the kept ticks satisfy
all three sweep invariants. -/
theorem C4_witness :
    (∀ u ∈ ([⟨10, 4⟩, ⟨12, 4⟩, ⟨30, 4⟩] : List Tick), 0 ≤ u.bboxWidth) ∧
    ((filterAxisLabelsPass 40 [⟨10, 4⟩, ⟨12, 4⟩, ⟨30, 4⟩]).Pairwise
        (fun a b => a.x + halfWidth a < b.x - halfWidth b) ∧
      (filterAxisLabelsPass 40 [⟨10, 4⟩, ⟨12, 4⟩, ⟨30, 4⟩]).Pairwise
        (fun a b => a.x < b.x) ∧
      ∀ t ∈ filterAxisLabelsPass 40 [⟨10, 4⟩, ⟨12, 4⟩, ⟨30, 4⟩],
        0 < t.x - halfWidth t ∧ t.x + halfWidth t < 40) :=
  ⟨by decide, C4_theorem 40 [⟨10, 4⟩, ⟨12, 4⟩, ⟨30, 4⟩] (by decide)⟩

end XAxisModel
